import Mathlib

/-!
Verification of the realtime connection manager in
`tobacco_trading_system/static/js/websockets.js` (class `TIMBWebSocket`).

Part A is a shallow embedding of the connection lifecycle: the manager state
mirrors the JS fields `connections`, `reconnectAttempts`, `heartbeatTimers`,
the pending `setTimeout` reconnect timers, and the set of WebSocket transports
created so far.  Events model the caller entry points (`connect`,
`disconnect`), the transport callbacks (`onopen`, `onclose`, `onerror`), the
reconnect `setTimeout` firing, the heartbeat `setInterval` tick, and the
page-visibility handlers (`pauseHeartbeats` / `resumeHeartbeats`).

Part B (further below) is a shallow embedding of the per-frame message path:
the `ws.onmessage` try/catch body, `emitEvent`/`subscribe` dispatch, `send`,
and the heartbeat tick payload.
-/

namespace TIMB

/-- Lookup in a JS `Map` modelled as an association list. -/
def mget {α : Type} (m : List (String × α)) (k : String) : Option α :=
  match m with
  | [] => none
  | (k1, v) :: rest => if k1 = k then some v else mget rest k

/-- `Map.set`: replace the binding of `k` if present, else add it. -/
def mset {α : Type} (m : List (String × α)) (k : String) (v : α) : List (String × α) :=
  match m with
  | [] => [(k, v)]
  | (k1, v1) :: rest => if k1 = k then (k, v) :: rest else (k1, v1) :: mset rest k v

/-- `Map.delete`: remove every binding of `k`. -/
def mdel {α : Type} (m : List (String × α)) (k : String) : List (String × α) :=
  match m with
  | [] => []
  | (k1, v1) :: rest => if k1 = k then mdel rest k else (k1, v1) :: mdel rest k

/-- Lifecycle phase of one WebSocket transport object. -/
inductive TState
  | connecting
  | opened
  | closed
deriving DecidableEq, Repr

/-- One WebSocket object created by `new WebSocket(url)` inside `connect`.
`owner` and `url` are the values captured by the handler closures attached in
`connect`; `closeRequested` records that the manager called `ws.close(1000)`
on it (from `disconnect`). -/
structure Transport where
  tid : Nat
  owner : String
  url : String
  tstate : TState
  closeRequested : Bool
deriving DecidableEq, Repr

/-- One pending `setTimeout` created by `scheduleReconnect`: it captures the
`name`, `url` and the `attempts` value read at scheduling time, and the
computed `delay`. The source stores no handle for this timer anywhere. -/
structure Pend where
  prid : Nat
  pname : String
  purl : String
  pattempts : Nat
  pdelay : Nat
deriving DecidableEq, Repr

/-- The mutable fields of the `TIMBWebSocket` instance, plus bookkeeping for
the transports created so far, the pending reconnect timeouts, the last
`updateStatus` call, and two observation logs: `scheduledLog` records each
`(name, delay)` actually scheduled by `scheduleReconnect`, and
`reconnectCallLog` records each entry into `scheduleReconnect`. -/
structure MState where
  connections : List (String × Nat)
  reconnectAttempts : List (String × Nat)
  heartbeats : List (String × Nat)
  pending : List Pend
  transports : List Transport
  nextTid : Nat
  nextPrid : Nat
  status : Option (String × String)
  scheduledLog : List (String × Nat)
  reconnectCallLog : List String
deriving DecidableEq, Repr

/-- `this.maxReconnectAttempts = 5`. -/
def maxReconnectAttempts : Nat := 5

/-- `this.reconnectDelay = 3000`. -/
def reconnectDelay : Nat := 3000

/-- `updateStatus(status, message)`: only the indicator text matters here. -/
def setStatus (st msg : String) (s : MState) : MState :=
  { s with status := some (st, msg) }

/-- `stopHeartbeat(name)`: clear and forget the interval timer for `name`. -/
def stopHeartbeat (name : String) (s : MState) : MState :=
  { s with heartbeats := mdel s.heartbeats name }

/-- `startHeartbeat(name)`: reads `this.connections.get(name)`; if absent,
returns; otherwise registers an interval timer that captured that socket. -/
def startHeartbeat (name : String) (s : MState) : MState :=
  match mget s.connections name with
  | none => s
  | some tid => { s with heartbeats := mset s.heartbeats name tid }

/-- Apply `g` to the transport with id `tid` (identity on the others). -/
def updTransport (tid : Nat) (g : Transport → Transport) (s : MState) : MState :=
  { s with transports := s.transports.map (fun t => if t.tid = tid then g t else t) }

/-- `disconnect(name)`: if `connections` has `name`, stop its heartbeat, call
`ws.close(1000, ...)` on the stored socket, and delete the `connections`,
`messageHandlers` and `reconnectAttempts` entries.  Nothing is done about a
pending reconnect timeout: the source keeps no handle for it. -/
def disconnect (name : String) (s : MState) : MState :=
  match mget s.connections name with
  | none => s
  | some tid =>
    let s1 := stopHeartbeat name s
    let s2 := updTransport tid (fun t => { t with closeRequested := true }) s1
    { s2 with connections := mdel s2.connections name,
              reconnectAttempts := mdel s2.reconnectAttempts name }

/-- `connect(name, url, handlers)`: tear down an existing connection with the
same name, show the connecting status, then `new WebSocket(url)`.  `fails`
models the constructor throwing (the `catch` branch); otherwise the new socket
is registered in `connections`. -/
def connect (name url : String) (fails : Bool) (s : MState) : MState :=
  let s1 := if (mget s.connections name).isSome then disconnect name s else s
  let s2 := setStatus "connecting" "Connecting..." s1
  if fails then
    setStatus "disconnected" "Connection Failed" s2
  else
    { s2 with
      transports := { tid := s2.nextTid, owner := name, url := url,
                      tstate := TState.connecting, closeRequested := false } :: s2.transports,
      connections := mset s2.connections name s2.nextTid,
      nextTid := s2.nextTid + 1 }

/-- `scheduleReconnect(name, url, handlers)`: read the current attempt counter
(defaulting to 0), stop if it already reached the maximum, otherwise compute
the exponential-backoff delay and register a `setTimeout`.  Entry into the
function is recorded in `reconnectCallLog`; an actual scheduling is recorded
in `scheduledLog`. -/
def scheduleReconnect (name url : String) (s : MState) : MState :=
  let s0 := { s with reconnectCallLog := s.reconnectCallLog ++ [name] }
  let attempts := (mget s0.reconnectAttempts name).getD 0
  if attempts ≥ maxReconnectAttempts then
    setStatus "disconnected" "Connection Failed" s0
  else
    let delay := reconnectDelay * 2 ^ attempts
    let s1 := setStatus "connecting"
      ("Reconnecting... (" ++ toString (attempts + 1) ++ "/" ++
        toString maxReconnectAttempts ++ ")") s0
    { s1 with
      pending := s1.pending ++ [{ prid := s1.nextPrid, pname := name, purl := url,
                                  pattempts := attempts, pdelay := delay }],
      nextPrid := s1.nextPrid + 1,
      scheduledLog := s1.scheduledLog ++ [(name, delay)] }

/-- The transport object with id `tid`, if it was ever created. -/
def findTransport (s : MState) (tid : Nat) : Option Transport :=
  s.transports.find? (fun t => t.tid = tid)

/-- The `ws.onopen` callback of transport `tid`: only a socket still in the
connecting phase and not already closed by the manager can open.  It resets
the reconnect counter of its captured `name` to 0 and starts the heartbeat. -/
def onOpenEv (tid : Nat) (s : MState) : MState :=
  match findTransport s tid with
  | none => s
  | some t =>
    if t.tstate = TState.connecting ∧ t.closeRequested = false then
      let s1 := updTransport tid (fun u => { u with tstate := TState.opened }) s
      let s2 := { s1 with reconnectAttempts := mset s1.reconnectAttempts t.owner 0 }
      startHeartbeat t.owner s2
    else s

/-- The `ws.onclose` callback of transport `tid` with close code `code`: fires
once per transport; a close after `ws.close(1000)` carries code 1000.  It
stops the heartbeat of the captured `name` and, when the code differs from
1000, calls `scheduleReconnect`. -/
def onCloseEv (tid code : Nat) (s : MState) : MState :=
  match findTransport s tid with
  | none => s
  | some t =>
    if t.tstate ≠ TState.closed ∧ (t.closeRequested = true → code = 1000) then
      let s1 := updTransport tid (fun u => { u with tstate := TState.closed }) s
      let s2 := stopHeartbeat t.owner s1
      if code ≠ 1000 then scheduleReconnect t.owner t.url s2 else s2
    else s

/-- A pending reconnect `setTimeout` fires: it is removed from the pending
set, writes back `attempts + 1` with the captured attempt count, and calls
`connect` with the captured name and url. -/
def fireReconnect (prid : Nat) (fails : Bool) (s : MState) : MState :=
  match s.pending.find? (fun p => p.prid = prid) with
  | none => s
  | some p =>
    let s1 := { s with pending := s.pending.filter (fun q => ¬ q.prid = prid) }
    let s2 := { s1 with reconnectAttempts := mset s1.reconnectAttempts p.pname (p.pattempts + 1) }
    connect p.pname p.purl fails s2

/-- A heartbeat interval tick for `name`: the timer captured the socket it was
started with; if that socket is no longer open, the timer stops itself.  (The
ping payload itself is modelled in Part B.) -/
def heartbeatTickEv (name : String) (s : MState) : MState :=
  match mget s.heartbeats name with
  | none => s
  | some tid =>
    match findTransport s tid with
    | none => stopHeartbeat name s
    | some t =>
      if t.tstate = TState.opened ∧ t.closeRequested = false then s
      else stopHeartbeat name s

/-- `pauseHeartbeats()`: clear every interval timer. -/
def pauseHeartbeats (s : MState) : MState := { s with heartbeats := [] }

/-- `resumeHeartbeats()`: restart the heartbeat of every registered connection
whose socket is open. -/
def resumeHeartbeats (s : MState) : MState :=
  { s with heartbeats :=
      s.connections.foldl (fun hb nc =>
        match findTransport s nc.2 with
        | some t =>
          if t.tstate = TState.opened ∧ t.closeRequested = false then mset hb nc.1 nc.2 else hb
        | none => hb) s.heartbeats }

/-- External events driving the manager: caller entry points, transport
callbacks, timer fires and page-visibility changes. -/
inductive Event
  | evConnect (name url : String) (fails : Bool)
  | evDisconnect (name : String)
  | evOpen (tid : Nat)
  | evClose (tid code : Nat)
  | evError (tid : Nat)
  | evTimerFire (prid : Nat) (fails : Bool)
  | evTick (name : String)
  | evPageHide
  | evPageShow
deriving DecidableEq, Repr

/-- One event step.  `ws.onerror` only logs and calls the user callback; it
changes no manager state. -/
def step (s : MState) (e : Event) : MState :=
  match e with
  | .evConnect name url fails => connect name url fails s
  | .evDisconnect name => disconnect name s
  | .evOpen tid => onOpenEv tid s
  | .evClose tid code => onCloseEv tid code s
  | .evError _ => s
  | .evTimerFire prid fails => fireReconnect prid fails s
  | .evTick name => heartbeatTickEv name s
  | .evPageHide => pauseHeartbeats s
  | .evPageShow => resumeHeartbeats s

/-- The state of a freshly constructed `TIMBWebSocket`. -/
def initState : MState :=
  { connections := [], reconnectAttempts := [], heartbeats := [], pending := [],
    transports := [], nextTid := 0, nextPrid := 0, status := none,
    scheduledLog := [], reconnectCallLog := [] }

/-- Run a sequence of events from a state. -/
def run (s : MState) (evs : List Event) : MState := evs.foldl step s

/-- The retry-failure scenario: an initial `connect`, then `n` rounds in which
the current transport (id `k`) closes with the non-intentional code 1006 and
the reconnect timeout (id `k`) scheduled by that closure fires. -/
def failTrace : Nat → List Event
  | 0 => [Event.evConnect "r" "u" false]
  | n + 1 => failTrace n ++ [Event.evClose n 1006, Event.evTimerFire n false]

/-!
Part B: the per-frame message path.

`ws.onmessage` wraps its whole body in try/catch: `JSON.parse(event.data)`,
the early return on a pong, the call to the per-connection `onMessage`
handler, and the `emitEvent` broadcast.  A decoded frame is modelled by its
`type` field (present when the decoded object carries a string `type`) and an
opaque payload token; `JSON.parse` itself is a browser builtin, so a frame
arrival is modelled by its parse result (`none` models a parse exception).
-/

/-- A decoded wire message: the `type` field of the JSON object when it is a
string, and the `payload` field as an opaque token. -/
structure Msg where
  type : Option String
  payload : String
deriving DecidableEq, Repr

/-- Observable actions of the `ws.onmessage` body, in order. -/
inductive MEffect
  | invokeHandler (data : Msg)
  | broadcast (data : Msg)
  | closeSocket
  | logCatchError
deriving DecidableEq, Repr

/-- The try block of `ws.onmessage`: the effects performed so far together
with whether an exception was raised inside the block.  `hasHandler` is
whether `handlers.onMessage` is registered; `handlerThrows` is whether that
callback raises on a given message; `parsed` is the `JSON.parse` result,
`none` meaning the parse threw. -/
def onmessageTry (hasHandler : Bool) (handlerThrows : Msg → Bool) (parsed : Option Msg) :
    List MEffect × Bool :=
  match parsed with
  | none => ([], true)
  | some data =>
    if data.type = some "pong" then ([], false)
    else if hasHandler then
      if handlerThrows data then ([MEffect.invokeHandler data], true)
      else ([MEffect.invokeHandler data, MEffect.broadcast data], false)
    else ([MEffect.broadcast data], false)

/-- The whole `ws.onmessage` callback: the catch arm appends only a
`console.error` log, so the callback always returns normally. -/
def onmessage (hasHandler : Bool) (handlerThrows : Msg → Bool) (parsed : Option Msg) :
    List MEffect :=
  match onmessageTry hasHandler handlerThrows parsed with
  | (effs, false) => effs
  | (effs, true) => effs ++ [MEffect.logCatchError]

/-- `subscribe(eventType, callback)` adds one document listener; the listener
list is a registration-ordered list of (eventType, callback id) pairs.
Dispatching the `websocket-message` custom event fired by
`emitEvent(source, data)` runs every listener in order; a listener whose
`eventType` equals `data.type` calls its callback with `(data.payload,
source)`.  The result lists the callback invocations in order. -/
def dispatchEvent (subs : List (String × Nat)) (source : String) (data : Msg) :
    List (Nat × String × String) :=
  subs.filterMap (fun sub =>
    if data.type = some sub.1 then some (sub.2, data.payload, source) else none)

/-- The broadcasts among an effect list, in order. -/
def broadcastsOf (effs : List MEffect) : List Msg :=
  effs.filterMap (fun e =>
    match e with
    | MEffect.broadcast d => some d
    | _ => none)

/-- Subscription callback invocations caused by one `onmessage` run: each
broadcast effect dispatches the `websocket-message` event to the listeners. -/
def subscriptionCalls (subs : List (String × Nat)) (source : String) (effs : List MEffect) :
    List (Nat × String × String) :=
  (broadcastsOf effs).foldr (fun d acc => dispatchEvent subs source d ++ acc) []

/-- A WebSocket object as `send` and the heartbeat see it. -/
structure WSConn where
  readyState : Nat
deriving DecidableEq, Repr

/-- `WebSocket.OPEN`. -/
def WS_OPEN : Nat := 1

/-- `send(name, data)`: transmit `JSON.stringify(data)` and return true only
when the named connection exists and its socket is open; the second component
lists the frames handed to the socket (serialization is the browser builtin
`JSON.stringify`, injective on our opaque message tokens). -/
def send (conns : List (String × WSConn)) (name : String) (data : String) :
    Bool × List String :=
  match mget conns name with
  | some ws => if ws.readyState = WS_OPEN then (true, [data]) else (false, [])
  | none => (false, [])

/-- The frame `JSON.stringify({ type: "ping" })` sent by the heartbeat. -/
def pingMsg : Msg := { type := some "ping", payload := "" }

/-- The body of the heartbeat `setInterval` callback: when the captured
socket is still open it sends a ping, otherwise it stops the interval (the
second component records that `stopHeartbeat` ran). -/
def heartbeatTick (readyState : Nat) : Option Msg × Bool :=
  if readyState = WS_OPEN then (some pingMsg, false) else (none, true)

lemma mget_mdel_self {α : Type} (m : List (String × α)) (k : String) :
    mget (mdel m k) k = none := by
  induction m with
  | nil => rfl
  | cons p rest ih =>
    obtain ⟨k1, v1⟩ := p
    by_cases h : k1 = k
    · simpa [mdel, h] using ih
    · simp [mdel, mget, h, ih]

lemma mget_mdel_ne {α : Type} (m : List (String × α)) (k k2 : String) (h : k ≠ k2) :
    mget (mdel m k) k2 = mget m k2 := by
  induction m with
  | nil => rfl
  | cons p rest ih =>
    obtain ⟨k1, v1⟩ := p
    by_cases h1 : k1 = k
    · subst h1
      simp [mdel, mget, h, ih]
    · by_cases h2 : k1 = k2 <;> simp [mdel, mget, h1, h2, Ne.symm h, ih]

lemma mget_mset_self {α : Type} (m : List (String × α)) (k : String) (v : α) :
    mget (mset m k v) k = some v := by
  induction m with
  | nil => simp [mset, mget]
  | cons p rest ih =>
    obtain ⟨k1, v1⟩ := p
    by_cases h : k1 = k
    · simp [mset, mget, h]
    · simp [mset, mget, h, ih]

lemma mget_mset_ne {α : Type} (m : List (String × α)) (k k2 : String) (v : α) (h : k ≠ k2) :
    mget (mset m k v) k2 = mget m k2 := by
  induction m with
  | nil => simp [mset, mget, h]
  | cons p rest ih =>
    obtain ⟨k1, v1⟩ := p
    by_cases h1 : k1 = k
    · subst h1
      simp [mset, mget, h]
    · by_cases h2 : k1 = k2 <;> simp [mset, mget, h1, h2, Ne.symm h, ih]

/-- A transport is live when it has been created, is not yet closed, and the
manager has not called `close` on it. -/
def isLive (t : Transport) : Bool :=
  (decide (t.tstate = TState.connecting) || decide (t.tstate = TState.opened)) &&
    !t.closeRequested

/-- The live transports whose creating `connect` call used `name`. -/
def liveFor (s : MState) (name : String) : List Transport :=
  s.transports.filter (fun t => isLive t && decide (t.owner = name))

/-- Inductive invariant: transport ids are below the id counter and strictly
decrease along the creation list (newest first), every live transport is the
one currently registered under its name, and registered ids are below the id
counter. -/
def Invariant (s : MState) : Prop :=
  (∀ t ∈ s.transports, t.tid < s.nextTid) ∧
  List.Pairwise (fun a b => b.tid < a.tid) s.transports ∧
  (∀ t ∈ s.transports, isLive t = true → mget s.connections t.owner = some t.tid) ∧
  (∀ name tid, mget s.connections name = some tid → tid < s.nextTid)

lemma tid_unique {l : List Transport} (hp : List.Pairwise (fun a b => b.tid < a.tid) l)
    {t1 t2 : Transport} (h1 : t1 ∈ l) (h2 : t2 ∈ l) (h : t1.tid = t2.tid) : t1 = t2 := by
  induction l with
  | nil => cases h1
  | cons a rest ih =>
    obtain ⟨ha, hrest⟩ := List.pairwise_cons.mp hp
    rcases List.mem_cons.mp h1 with e1 | m1
    · rcases List.mem_cons.mp h2 with e2 | m2
      · rw [e1, e2]
      · exfalso
        have hlt := ha t2 m2
        rw [e1] at h
        omega
    · rcases List.mem_cons.mp h2 with e2 | m2
      · exfalso
        have hlt := ha t1 m1
        rw [e2] at h
        omega
      · exact ih hrest m1 m2

lemma mem_map_update {l : List Transport} {tid : Nat} {g : Transport → Transport}
    {t2 : Transport} (h : t2 ∈ l.map (fun t => if t.tid = tid then g t else t)) :
    ∃ t1 ∈ l, t2 = if t1.tid = tid then g t1 else t1 := by
  obtain ⟨t1, ht1, hEq⟩ := List.mem_map.mp h
  exact ⟨t1, ht1, hEq.symm⟩

lemma pairwise_map_update {l : List Transport} {tid : Nat} {g : Transport → Transport}
    (hg : ∀ t, (g t).tid = t.tid)
    (hp : List.Pairwise (fun a b => b.tid < a.tid) l) :
    List.Pairwise (fun a b => b.tid < a.tid)
      (l.map (fun t => if t.tid = tid then g t else t)) := by
  refine List.Pairwise.map _ ?_ hp
  intro a b hab
  have ha : (if a.tid = tid then g a else a).tid = a.tid := by split <;> simp [hg]
  have hb : (if b.tid = tid then g b else b).tid = b.tid := by split <;> simp [hg]
  rw [ha, hb]
  exact hab

lemma tid_bound_map_update {l : List Transport} {n tid : Nat} {g : Transport → Transport}
    (hg : ∀ t, (g t).tid = t.tid) (h : ∀ t ∈ l, t.tid < n) :
    ∀ t2 ∈ l.map (fun t => if t.tid = tid then g t else t), t2.tid < n := by
  intro t2 ht2
  obtain ⟨t1, ht1, hEq⟩ := mem_map_update ht2
  have : t2.tid = t1.tid := by rw [hEq]; split <;> simp [hg]
  rw [this]
  exact h t1 ht1

lemma invariant_of_fields (s s2 : MState)
    (ht : s2.transports = s.transports) (hc : s2.connections = s.connections)
    (hn : s2.nextTid = s.nextTid) (h : Invariant s) : Invariant s2 := by
  obtain ⟨h1, h2, h3, h4⟩ := h
  refine ⟨?_, ?_, ?_, ?_⟩
  · rw [ht, hn]; exact h1
  · rw [ht]; exact h2
  · rw [ht, hc]; exact h3
  · rw [hc, hn]; exact h4

lemma inv_stopHeartbeat (name : String) (s : MState) (h : Invariant s) :
    Invariant (stopHeartbeat name s) :=
  invariant_of_fields s _ rfl rfl rfl h

lemma inv_startHeartbeat (name : String) (s : MState) (h : Invariant s) :
    Invariant (startHeartbeat name s) := by
  unfold startHeartbeat
  cases mget s.connections name with
  | none => exact h
  | some tid => exact invariant_of_fields s _ rfl rfl rfl h

lemma inv_setStatus (st msg : String) (s : MState) (h : Invariant s) :
    Invariant (setStatus st msg s) :=
  invariant_of_fields s _ rfl rfl rfl h

lemma inv_scheduleReconnect (name url : String) (s : MState) (h : Invariant s) :
    Invariant (scheduleReconnect name url s) := by
  unfold scheduleReconnect
  dsimp only
  split
  · exact invariant_of_fields s _ rfl rfl rfl h
  · exact invariant_of_fields s _ rfl rfl rfl h

lemma inv_disconnect (name : String) (s : MState) (h : Invariant s) :
    Invariant (disconnect name s) := by
  obtain ⟨h1, h2, h3, h4⟩ := h
  unfold disconnect
  cases hc : mget s.connections name with
  | none => exact ⟨h1, h2, h3, h4⟩
  | some tid =>
    dsimp only [stopHeartbeat, updTransport]
    refine ⟨?_, ?_, ?_, ?_⟩
    · exact tid_bound_map_update (fun t => rfl) h1
    · exact pairwise_map_update (fun t => rfl) h2
    · intro t2 ht2 hlive
      obtain ⟨t1, ht1, hEq⟩ := mem_map_update ht2
      by_cases htid : t1.tid = tid
      · rw [hEq, if_pos htid] at hlive
        simp [isLive] at hlive
      · rw [hEq, if_neg htid] at hlive ⊢
        have hreg := h3 t1 ht1 hlive
        by_cases hown : t1.owner = name
        · rw [hown] at hreg
          rw [hreg] at hc
          exact absurd (Option.some.inj hc) htid
        · rw [mget_mdel_ne _ _ _ (fun hh => hown hh.symm)]
          exact hreg
    · intro name2 tid2 hm
      by_cases hn2 : name = name2
      · rw [← hn2, mget_mdel_self] at hm
        exact Option.noConfusion hm
      · rw [mget_mdel_ne _ _ _ hn2] at hm
        exact h4 name2 tid2 hm

lemma mget_none_of_disconnect (name : String) (s : MState) :
    mget (disconnect name s).connections name = none := by
  unfold disconnect
  cases hc : mget s.connections name with
  | none => exact hc
  | some tid =>
    dsimp only [stopHeartbeat, updTransport]
    exact mget_mdel_self _ _

lemma inv_connect (name url : String) (fails : Bool) (s : MState) (h : Invariant s) :
    Invariant (connect name url fails s) := by
  unfold connect
  have key : ∀ s1 : MState, Invariant s1 → mget s1.connections name = none →
      Invariant (if fails then
        setStatus "disconnected" "Connection Failed"
          (setStatus "connecting" "Connecting..." s1)
      else
        { setStatus "connecting" "Connecting..." s1 with
          transports := { tid := (setStatus "connecting" "Connecting..." s1).nextTid,
                          owner := name, url := url, tstate := TState.connecting,
                          closeRequested := false } ::
            (setStatus "connecting" "Connecting..." s1).transports,
          connections := mset (setStatus "connecting" "Connecting..." s1).connections name
            (setStatus "connecting" "Connecting..." s1).nextTid,
          nextTid := (setStatus "connecting" "Connecting..." s1).nextTid + 1 }) := by
    intro s1 h1 hnone
    obtain ⟨g1, g2, g3, g4⟩ := h1
    cases fails
    · rw [if_neg (fun hh => Bool.false_ne_true hh)]
      dsimp only [setStatus]
      refine ⟨?_, ?_, ?_, ?_⟩
      · intro t ht
        rcases List.mem_cons.mp ht with rfl | ht
        · exact Nat.lt_succ_self _
        · exact Nat.lt_succ_of_lt (g1 t ht)
      · refine List.pairwise_cons.mpr ⟨?_, g2⟩
        intro t ht
        exact g1 t ht
      · intro t ht hlive
        rcases List.mem_cons.mp ht with rfl | ht
        · exact mget_mset_self _ _ _
        · have hreg := g3 t ht hlive
          by_cases hown : name = t.owner
          · rw [← hown] at hreg
            rw [hreg] at hnone
            exact Option.noConfusion hnone
          · rw [mget_mset_ne _ _ _ _ hown]
            exact hreg
      · intro name2 tid2 hm
        by_cases hn2 : name = name2
        · rw [← hn2, mget_mset_self] at hm
          obtain rfl := Option.some.inj hm
          exact Nat.lt_succ_self _
        · rw [mget_mset_ne _ _ _ _ hn2] at hm
          exact Nat.lt_succ_of_lt (g4 name2 tid2 hm)
    · rw [if_pos rfl]
      exact inv_setStatus _ _ _ (inv_setStatus _ _ _ ⟨g1, g2, g3, g4⟩)
  by_cases hs : (mget s.connections name).isSome
  · rw [if_pos hs]
    exact key (disconnect name s) (inv_disconnect name s h) (mget_none_of_disconnect name s)
  · rw [if_neg hs]
    exact key s h (Option.not_isSome_iff_eq_none.mp hs)

lemma inv_updTransport_kill (tid : Nat) (g : Transport → Transport)
    (hgid : ∀ u, (g u).tid = u.tid) (hkill : ∀ u, isLive (g u) = false)
    (s : MState) (h : Invariant s) : Invariant (updTransport tid g s) := by
  obtain ⟨h1, h2, h3, h4⟩ := h
  dsimp only [updTransport]
  refine ⟨tid_bound_map_update hgid h1, pairwise_map_update hgid h2, ?_, h4⟩
  intro t2 ht2 hlive
  obtain ⟨t1, ht1, hEq⟩ := mem_map_update ht2
  by_cases h1d : t1.tid = tid
  · rw [hEq, if_pos h1d, hkill t1] at hlive
    exact Bool.noConfusion hlive
  · rw [hEq, if_neg h1d] at hlive ⊢
    exact h3 t1 ht1 hlive

lemma inv_onOpenEv (tid : Nat) (s : MState) (h : Invariant s) :
    Invariant (onOpenEv tid s) := by
  unfold onOpenEv
  cases hf : findTransport s tid with
  | none => exact h
  | some t =>
    dsimp only
    by_cases hg : t.tstate = TState.connecting ∧ t.closeRequested = false
    · rw [if_pos hg]
      refine inv_startHeartbeat _ _ ?_
      obtain ⟨h1, h2, h3, h4⟩ := h
      have htmem : t ∈ s.transports := List.mem_of_find?_eq_some hf
      have htid : t.tid = tid := by
        have := List.find?_some hf
        simpa using this
      dsimp only [updTransport]
      refine ⟨?_, ?_, ?_, ?_⟩
      · exact tid_bound_map_update (fun u => rfl) h1
      · exact pairwise_map_update (fun u => rfl) h2
      · intro t2 ht2 hlive
        obtain ⟨t1, ht1, hEq⟩ := mem_map_update ht2
        by_cases h1d : t1.tid = tid
        · have ht1t : t1 = t := tid_unique h2 ht1 htmem (by rw [h1d, htid])
          have hlive_t : isLive t = true := by
            simp [isLive, hg.1, hg.2]
          have hreg := h3 t htmem hlive_t
          rw [hEq, if_pos h1d, ht1t]
          exact hreg
        · rw [hEq, if_neg h1d] at hlive ⊢
          exact h3 t1 ht1 hlive
      · exact h4
    · rw [if_neg hg]
      exact h

lemma inv_onCloseEv (tid code : Nat) (s : MState) (h : Invariant s) :
    Invariant (onCloseEv tid code s) := by
  unfold onCloseEv
  cases hf : findTransport s tid with
  | none => exact h
  | some t =>
    dsimp only
    by_cases hg : t.tstate ≠ TState.closed ∧ (t.closeRequested = true → code = 1000)
    · rw [if_pos hg]
      have hkill : Invariant (updTransport tid
          (fun u => { u with tstate := TState.closed }) s) :=
        inv_updTransport_kill tid (fun u => { u with tstate := TState.closed })
          (fun u => rfl) (fun u => by simp [isLive]) s h
      by_cases hcode : code ≠ 1000
      · rw [if_pos hcode]
        exact inv_scheduleReconnect _ _ _ (inv_stopHeartbeat _ _ hkill)
      · rw [if_neg hcode]
        exact inv_stopHeartbeat _ _ hkill
    · rw [if_neg hg]
      exact h

lemma inv_fireReconnect (prid : Nat) (fails : Bool) (s : MState) (h : Invariant s) :
    Invariant (fireReconnect prid fails s) := by
  unfold fireReconnect
  cases s.pending.find? (fun p => p.prid = prid) with
  | none => exact h
  | some p =>
    dsimp only
    exact inv_connect _ _ _ _ (invariant_of_fields s _ rfl rfl rfl h)

lemma inv_heartbeatTickEv (name : String) (s : MState) (h : Invariant s) :
    Invariant (heartbeatTickEv name s) := by
  unfold heartbeatTickEv
  cases hmb : mget s.heartbeats name with
  | none => exact h
  | some tid =>
    dsimp only
    cases hft : findTransport s tid with
    | none => exact inv_stopHeartbeat _ _ h
    | some t =>
      dsimp only
      split
      · exact h
      · exact inv_stopHeartbeat _ _ h

lemma inv_step (s : MState) (e : Event) (h : Invariant s) : Invariant (step s e) := by
  cases e with
  | evConnect name url fails => exact inv_connect name url fails s h
  | evDisconnect name => exact inv_disconnect name s h
  | evOpen tid => exact inv_onOpenEv tid s h
  | evClose tid code => exact inv_onCloseEv tid code s h
  | evError tid => exact h
  | evTimerFire prid fails => exact inv_fireReconnect prid fails s h
  | evTick name => exact inv_heartbeatTickEv name s h
  | evPageHide => exact invariant_of_fields s _ rfl rfl rfl h
  | evPageShow => exact invariant_of_fields s _ rfl rfl rfl h

lemma inv_init : Invariant initState := by
  refine ⟨?_, ?_, ?_, ?_⟩ <;> simp [initState, mget]

lemma inv_run (evs : List Event) (s : MState) (h : Invariant s) : Invariant (run s evs) := by
  induction evs generalizing s with
  | nil => exact h
  | cons e rest ih => exact ih (step s e) (inv_step s e h)

lemma liveFor_length_le_one (s : MState) (h : Invariant s) (name : String) :
    (liveFor s name).length ≤ 1 := by
  obtain ⟨h1, h2, h3, h4⟩ := h
  cases hl : liveFor s name with
  | nil => simp
  | cons x tail =>
    cases tail with
    | nil => simp
    | cons y rest =>
      exfalso
      have hx : x ∈ liveFor s name := by
        rw [hl]
        exact List.mem_cons_self _ _
      have hy : y ∈ liveFor s name := by
        rw [hl]
        exact List.mem_cons.mpr (Or.inr (List.mem_cons_self _ _))
      have hp : List.Pairwise (fun a b => b.tid < a.tid) (liveFor s name) :=
        List.Pairwise.filter _ h2
      rw [hl] at hp
      have hxy : y.tid < x.tid := (List.pairwise_cons.mp hp).1 y (List.mem_cons_self _ _)
      simp only [liveFor, List.mem_filter, Bool.and_eq_true, decide_eq_true_eq] at hx hy
      obtain ⟨hxm, hxl, hxo⟩ := hx
      obtain ⟨hym, hyl, hyo⟩ := hy
      have ex := h3 x hxm hxl
      have ey := h3 y hym hyl
      rw [hxo] at ex
      rw [hyo] at ey
      rw [ex] at ey
      have := Option.some.inj ey
      omega

lemma connect_closes_existing (name url : String) (fails : Bool) (s : MState)
    (hInv : Invariant s) (tid : Nat) (hc : mget s.connections name = some tid) :
    ∀ t2 ∈ (connect name url fails s).transports, t2.tid = tid →
      t2.closeRequested = true := by
  intro t2 ht2 htid2
  obtain ⟨h1, h2, h3, h4⟩ := hInv
  have htidlt : tid < s.nextTid := h4 name tid hc
  unfold connect at ht2
  rw [if_pos (by rw [hc]; rfl : (mget s.connections name).isSome = true)] at ht2
  unfold disconnect at ht2
  rw [hc] at ht2
  dsimp only [stopHeartbeat, updTransport, setStatus] at ht2
  cases fails
  · rw [if_neg (fun hh => Bool.false_ne_true hh)] at ht2
    dsimp only at ht2
    rcases List.mem_cons.mp ht2 with e | m
    · exfalso
      rw [e] at htid2
      dsimp only at htid2
      omega
    · obtain ⟨t1, ht1, hEq⟩ := mem_map_update m
      by_cases h1d : t1.tid = tid
      · rw [hEq, if_pos h1d]
      · exfalso
        rw [hEq, if_neg h1d] at htid2
        exact h1d htid2
  · rw [if_pos rfl] at ht2
    dsimp only at ht2
    obtain ⟨t1, ht1, hEq⟩ := mem_map_update ht2
    by_cases h1d : t1.tid = tid
    · rw [hEq, if_pos h1d]
    · exfalso
      rw [hEq, if_neg h1d] at htid2
      exact h1d htid2

/-- C4: along every event sequence from the initial state, at most one live
transport exists per connection name at any time; and `connect` on a name
that is currently registered marks the registered transport as closed by the
manager before the new transport is created. -/
theorem c4_at_most_one_live_transport :
    (∀ (evs : List Event) (name : String),
      (liveFor (run initState evs) name).length ≤ 1) ∧
    (∀ (evs : List Event) (name url : String) (fails : Bool) (tid : Nat),
      mget (run initState evs).connections name = some tid →
      ∀ t2 ∈ (connect name url fails (run initState evs)).transports,
        t2.tid = tid → t2.closeRequested = true) := by
  constructor
  · intro evs name
    exact liveFor_length_le_one _ (inv_run evs initState inv_init) name
  · intro evs name url fails tid hc t2 ht2 htid2
    exact connect_closes_existing name url fails _ (inv_run evs initState inv_init)
      tid hc t2 ht2 htid2

/-- Witness for C4 part two: reconnecting the already registered name `r`
leaves the old transport (id 0) marked as closed by the manager. -/
theorem c4_at_most_one_live_transport_witness :
    ({ tid := 0, owner := "r", url := "u", tstate := TState.connecting,
       closeRequested := true } : Transport).closeRequested = true :=
  c4_at_most_one_live_transport.2 [Event.evConnect "r" "u" false] "r" "u2" false 0
    (by decide)
    { tid := 0, owner := "r", url := "u", tstate := TState.connecting,
      closeRequested := true }
    (by decide) (by decide)

lemma reconnectCallLog_schedule (name url : String) (s : MState) :
    (scheduleReconnect name url s).reconnectCallLog = s.reconnectCallLog ++ [name] := by
  unfold scheduleReconnect
  by_cases h : (mget s.reconnectAttempts name).getD 0 ≥ maxReconnectAttempts <;>
    simp [h, setStatus]

/-- C1: the claim states that after N consecutive non-intentional closures
(N below the maximum) the k-th scheduled reconnect delay is
`reconnectDelay * 2 ^ k`.  The code disagrees: on every retry the timeout
callback runs `connect`, which finds the stale closed socket still in
`connections`, calls `disconnect`, and `disconnect` deletes the
`reconnectAttempts` entry the callback had just written; so
`scheduleReconnect` always reads attempt count 0.  At N = 2 the second
scheduled delay is therefore 3000 = base, not 6000 = base * 2. -/
theorem c1_second_delay_stays_at_base :
    (run initState (failTrace 2)).scheduledLog = [("r", 3000), ("r", 3000)] := by decide

/-- C2: the claim states that after `maxReconnectAttempts = 5` consecutive
failures no further reconnect is scheduled and the status reports failure.
The code disagrees: the attempt counter is wiped on every retry (see C1), so
after 6 consecutive non-intentional closures a 6th reconnect has been
scheduled (all at delay 3000) and the status still shows the first-attempt
reconnecting message, never the failed one. -/
theorem c2_sixth_reconnect_still_scheduled :
    (run initState (failTrace 5 ++ [Event.evClose 5 1006])).scheduledLog =
      List.replicate 6 ("r", 3000) ∧
    (run initState (failTrace 5 ++ [Event.evClose 5 1006])).status =
      some ("connecting", "Reconnecting... (1/5)") := by decide

/-- C3 counterexample: `connect`, a non-intentional closure (which schedules
a reconnect timeout), then `disconnect`.  The pending timeout survives the
disconnect, and when it later fires a fresh transport (id 1) is opened and
registered for the name although the caller never requested one. -/
theorem c3_pending_reconnect_survives_disconnect :
    (run initState [Event.evConnect "r" "u" false, Event.evClose 0 1006,
        Event.evDisconnect "r"]).pending =
      [{ prid := 0, pname := "r", purl := "u", pattempts := 0, pdelay := 3000 }] ∧
    mget (run initState [Event.evConnect "r" "u" false, Event.evClose 0 1006,
        Event.evDisconnect "r", Event.evTimerFire 0 false]).connections "r" = some 1 := by
  decide

/-- C3 amended: `disconnect(name)` cancels the heartbeat timer and removes
the name from the registry, but it never cancels a pending scheduled
reconnect — the source stores no handle for the `setTimeout` created by
`scheduleReconnect`, so the pending set is left untouched by any
`disconnect` call. -/
theorem c3_disconnect_cancels_heartbeat_not_reconnect (s : MState) (name : String) :
    (disconnect name s).pending = s.pending ∧
    (∀ tid, mget s.connections name = some tid →
      mget (disconnect name s).heartbeats name = none ∧
      mget (disconnect name s).connections name = none) := by
  constructor
  · unfold disconnect
    cases h : mget s.connections name with
    | none => rfl
    | some tid => simp [stopHeartbeat, updTransport]
  · intro tid htid
    simp [disconnect, htid, stopHeartbeat, updTransport, mget_mdel_self]

/-- Witness for the C3 amended theorem at a concrete registered name. -/
theorem c3_disconnect_cancels_heartbeat_not_reconnect_witness :
    mget (disconnect "r" (run initState [Event.evConnect "r" "u" false])).heartbeats "r" = none ∧
    mget (disconnect "r" (run initState [Event.evConnect "r" "u" false])).connections "r" = none :=
  (c3_disconnect_cancels_heartbeat_not_reconnect
    (run initState [Event.evConnect "r" "u" false]) "r").2 0 (by decide)

/-- C5: a close event with code 1000 (intentional disconnect) never enters
`scheduleReconnect` and leaves the pending reconnects untouched, while a
close event with any other code on a transport that is not already closed
and was not closed by the manager enters `scheduleReconnect` for the
captured connection name. -/
theorem c5_close_code_decides_reconnect_path :
    (∀ (s : MState) (tid : Nat),
      (onCloseEv tid 1000 s).pending = s.pending ∧
      (onCloseEv tid 1000 s).scheduledLog = s.scheduledLog ∧
      (onCloseEv tid 1000 s).reconnectCallLog = s.reconnectCallLog) ∧
    (∀ (s : MState) (tid code : Nat) (t : Transport),
      findTransport s tid = some t → t.tstate ≠ TState.closed →
      t.closeRequested = false → code ≠ 1000 →
      (onCloseEv tid code s).reconnectCallLog = s.reconnectCallLog ++ [t.owner]) := by
  constructor
  · intro s tid
    unfold onCloseEv
    cases h : findTransport s tid with
    | none => exact ⟨rfl, rfl, rfl⟩
    | some t =>
      by_cases hts : t.tstate = TState.closed
      · simp [hts]
      · simp [hts, stopHeartbeat, updTransport]
  · intro s tid code t hfind hst hreq hcode
    unfold onCloseEv
    rw [hfind]
    simp [hst, hreq, hcode, reconnectCallLog_schedule, stopHeartbeat, updTransport]

/-- Witness for C5 at a concrete freshly connected transport closing with
code 1006. -/
theorem c5_close_code_decides_reconnect_path_witness :
    (onCloseEv 0 1006 (run initState [Event.evConnect "a" "u" false])).reconnectCallLog =
      (run initState [Event.evConnect "a" "u" false]).reconnectCallLog ++ ["a"] :=
  c5_close_code_decides_reconnect_path.2 (run initState [Event.evConnect "a" "u" false])
    0 1006 { tid := 0, owner := "a", url := "u", tstate := TState.connecting,
             closeRequested := false }
    (by decide) (by decide) (by decide) (by decide)

/-- C6: `send(name, data)` hands exactly one frame to the socket and returns
true precisely when the named connection exists and its socket is in the
OPEN ready state; otherwise it returns false and transmits nothing. -/
theorem c6_send_only_when_open (conns : List (String × WSConn)) (name data : String) :
    ((send conns name data).1 = true ↔
      ∃ ws, mget conns name = some ws ∧ ws.readyState = WS_OPEN) ∧
    ((send conns name data).1 = true → (send conns name data).2 = [data]) ∧
    ((send conns name data).1 = false → (send conns name data).2 = []) := by
  unfold send
  cases h : mget conns name with
  | none => simp
  | some ws => by_cases ho : ws.readyState = WS_OPEN <;> simp [ho]

/-- Witness for C6: an open socket transmits once, a closed one not at all. -/
theorem c6_send_only_when_open_witness :
    (send [("a", { readyState := 1 })] "a" "m").2 = ["m"] ∧
    (send [("a", { readyState := 3 })] "a" "m").2 = [] :=
  ⟨(c6_send_only_when_open [("a", { readyState := 1 })] "a" "m").2.1 (by decide),
   (c6_send_only_when_open [("a", { readyState := 3 })] "a" "m").2.2 (by decide)⟩

/-- C7: the heartbeat tick sends the ping frame whenever the captured socket
is open, and a decoded pong frame is consumed internally: the `onmessage`
run performs no effect at all, so neither the per-connection handler nor any
subscription callback ever sees it. -/
theorem c7_ping_each_tick_pong_consumed :
    (heartbeatTick WS_OPEN).1 = some pingMsg ∧
    (∀ (hh : Bool) (ht : Msg → Bool) (p : String),
      onmessage hh ht (some { type := some "pong", payload := p }) = []) ∧
    (∀ (subs : List (String × Nat)) (source : String) (hh : Bool) (ht : Msg → Bool)
        (p : String),
      subscriptionCalls subs source
        (onmessage hh ht (some { type := some "pong", payload := p })) = []) := by
  refine ⟨rfl, ?_, ?_⟩
  · intro hh ht p
    simp [onmessage, onmessageTry]
  · intro subs source hh ht p
    simp [onmessage, onmessageTry, subscriptionCalls, broadcastsOf]

/-- C8: a frame whose payload fails to parse is logged by the catch arm and
dropped: no handler call, no broadcast, no socket close, and the callback
returns normally (the catch arm swallows the exception). -/
theorem c8_parse_failure_logged_and_dropped (hh : Bool) (ht : Msg → Bool) :
    onmessage hh ht none = [MEffect.logCatchError] ∧
    MEffect.closeSocket ∉ onmessage hh ht none ∧
    (∀ m, MEffect.invokeHandler m ∉ onmessage hh ht none) ∧
    (∀ m, MEffect.broadcast m ∉ onmessage hh ht none) := by
  refine ⟨rfl, ?_, fun m => ?_, fun m => ?_⟩ <;> simp [onmessage, onmessageTry]

/-- C9: dispatching one broadcast message runs exactly the subscriptions
whose registered type equals the declared type of the message, in
registration order, each exactly once, passing the payload and the source
connection name. -/
theorem c9_matching_subscriptions_fire_in_order (subs : List (String × Nat))
    (source : String) (data : Msg) (t : String) (h : data.type = some t) :
    dispatchEvent subs source data =
      (subs.filter (fun sub => sub.1 = t)).map (fun sub => (sub.2, data.payload, source)) := by
  induction subs with
  | nil => rfl
  | cons sub rest ih =>
    simp only [dispatchEvent, List.filterMap_cons, List.filter_cons, h,
      Option.some.injEq] at ih ⊢
    by_cases ht : sub.1 = t
    · subst ht
      simp [ih]
    · have hne : ¬ t = sub.1 := fun hh => ht hh.symm
      simp [hne, ht, ih]

/-- Witness for C9: three subscriptions, two of the matching type, fire in
registration order with payload and source. -/
theorem c9_matching_subscriptions_fire_in_order_witness :
    dispatchEvent [("a", 1), ("b", 2), ("a", 3)] "src" { type := some "a", payload := "p" } =
      [(1, "p", "src"), (3, "p", "src")] := by
  rw [c9_matching_subscriptions_fire_in_order [("a", 1), ("b", 2), ("a", 3)] "src"
    { type := some "a", payload := "p" } "a" rfl]
  decide

/-- C10: when the per-connection handler throws on a decoded non-pong
message, the handler has been invoked, the same catch arm that handles parse
failures logs the error, and the broadcast step is never reached. -/
theorem c10_handler_throw_skips_broadcast (ht : Msg → Bool) (data : Msg)
    (h1 : ht data = true) (h2 : data.type ≠ some "pong") :
    onmessage true ht (some data) =
      [MEffect.invokeHandler data, MEffect.logCatchError] ∧
    (∀ m, MEffect.broadcast m ∉ onmessage true ht (some data)) := by
  have he : onmessageTry true ht (some data) = ([MEffect.invokeHandler data], true) := by
    simp [onmessageTry, h1, h2]
  refine ⟨by simp [onmessage, he], fun m => by simp [onmessage, he]⟩

/-- Witness for C10 with an always-throwing handler on a concrete message. -/
theorem c10_handler_throw_skips_broadcast_witness :
    onmessage true (fun _ => true) (some { type := some "x", payload := "p" }) =
      [MEffect.invokeHandler { type := some "x", payload := "p" },
       MEffect.logCatchError] :=
  (c10_handler_throw_skips_broadcast (fun _ => true)
    { type := some "x", payload := "p" } rfl (by decide)).1

end TIMB
